import Mathlib

/-!
# Verification of the drift detection and severity-classification engine

Shallow embedding of the core of `ai-contract-drift-monitor`:
the Level-1 schema extractor (`buildLevel1Schema`), the differ
(`diffSchemas`), the severity classifier (`classifySeverity`), the
baseline-store update (`updateSnapshotsPROnly`, `shouldBlockCI`), the
scheduling preflight (`isWithinCronWindow`, `canRunNow`) and the drift
orchestrator's sequencing (`driftCheckMain`), each translated from the
TypeScript source.  Maps (JS objects) are modelled as association lists
in insertion order; JS strings are Lean strings.
-/

namespace DriftMonitor

/-- JS `String.prototype.includes`: `pat` occurs as a contiguous substring
of `s` (viewed as lists of characters). -/
def strIncludes (s pat : String) : Bool :=
  decide (pat.data <:+: s.data)

/-- Key dedup in first-occurrence order (accumulating the keys already
seen), modelling iteration over a JS `Set` built from a list of keys. -/
def dedupFirstAux (seen : List String) : List String → List String
  | [] => []
  | k :: ks =>
    if k ∈ seen then dedupFirstAux seen ks
    else k :: dedupFirstAux (k :: seen) ks

/-- Key dedup in first-occurrence order, modelling iteration over a JS
`Set` built from a list of keys. -/
def dedupFirst (l : List String) : List String :=
  dedupFirstAux [] l

/-! ## JSON values and the REST Level-1 schema extractor -/

/-- A JSON value, as delivered by `res.json()`. -/
inductive Json where
  | null : Json
  | bool (b : Bool) : Json
  | num (n : Int) : Json
  | str (s : String) : Json
  | arr (items : List Json) : Json
  | obj (fields : List (String × Json)) : Json

/-- `typeOfValue` from the drift-check CLI:
`Array.isArray` first, then `null`, then JS `typeof`. -/
def typeOfValue : Json → String
  | .arr _ => "array"
  | .null => "null"
  | .bool _ => "boolean"
  | .num _ => "number"
  | .str _ => "string"
  | .obj _ => "object"

/-- `buildLevel1Schema` from the drift-check CLI.
`obj === null || typeof obj !== 'object'` returns `{}`; otherwise the
function maps over `Object.entries(obj)`.  For a JS array,
`Object.entries` yields the index strings `"0", "1", ...` paired with
the elements, which is why arrays fall through the `typeof` guard. -/
def buildLevel1Schema (j : Json) : List (String × String) :=
  match j with
  | .null => []
  | .bool _ => []
  | .num _ => []
  | .str _ => []
  | .arr l => l.enum.map (fun p => (toString p.1, typeOfValue p.2))
  | .obj kvs => kvs.map (fun p => (p.1, typeOfValue p.2))

/-! ## Signatures and the differ -/

/-- A runtime value stored in a signature: REST extraction stores kind
tags (strings); GraphQL extraction stores sorted token lists (arrays). -/
inductive SchemaValue where
  | str (s : String) : SchemaValue
  | arr (items : List String) : SchemaValue
deriving DecidableEq

/-- A Level-1 signature: field name to value, in insertion order. -/
abbrev Signature := List (String × SchemaValue)

/-- The persisted baseline: target id to signature. -/
abbrev Snapshot := List (String × Signature)

/-- Result of diffing two signatures. -/
structure DiffResult where
  added : List String
  removed : List String
deriving DecidableEq

/-- The per-key body of the `for (const key of allKeys)` loop of
`diffSchemas` (hardened drift-check CLI): emissions into `added`
(first component) and `removed` (second component) for one key. -/
def diffKey (prev curr : Signature) (key : String) : List String × List String :=
  match prev.lookup key, curr.lookup key with
  | some _, none => ([], [key])
  | none, some _ => ([key], [])
  | some (.arr p), some (.arr c) =>
      ((c.filter (fun item => !(p.contains item))).map (fun item => key ++ "." ++ item),
       (p.filter (fun item => !(c.contains item))).map (fun item => key ++ "." ++ item))
  | some pv, some cv => if pv ≠ cv then ([key ++ " (type changed)"], []) else ([], [])
  | none, none => ([], [])

/-- `diffSchemas` (hardened drift-check CLI): iterate over
`new Set([...Object.keys(prev), ...Object.keys(curr)])` and push per-key
emissions into `added` / `removed`. -/
def diffSchemas (prev curr : Signature) : DiffResult :=
  let allKeys := dedupFirst (prev.map Prod.fst ++ curr.map Prod.fst)
  { added := allKeys.flatMap (fun k => (diffKey prev curr k).1)
    removed := allKeys.flatMap (fun k => (diffKey prev curr k).2) }

namespace Legacy

/-- `diffSchemas` of the legacy CLI variant: key-set comparison only,
with no array handling and no type-change detection. -/
def diffSchemas (prev curr : Signature) : DiffResult :=
  let prevKeys := prev.map Prod.fst
  let currKeys := curr.map Prod.fst
  { added := currKeys.filter (fun k => !(prevKeys.contains k))
    removed := prevKeys.filter (fun k => !(currKeys.contains k)) }

end Legacy

/-! ## Severity classifier -/

/-- `Severity` from `severity.ts`. -/
inductive Severity where
  | minor : Severity
  | major : Severity
deriving DecidableEq

/-- `SeverityClassification` from `severity.ts`. -/
structure SeverityClassification where
  severity : Severity
  reasons : List String
deriving DecidableEq

/-- Body of the classifier's `for (const field of changes.removed)`
loop; the accumulator is `(reasons, hasMajor)`, and both branches set
`hasMajor` to `true`. -/
def classifyRemovedStep (targetId : String) (a : List String × Bool) (field : String) :
    List String × Bool :=
  if strIncludes field "[DEPRECATED]" then
    (a.1 ++ ["[MAJOR] " ++ targetId ++ ": Deprecated field '" ++ field ++ "' removed"], true)
  else
    (a.1 ++ ["[MAJOR] " ++ targetId ++ ": Field '" ++ field ++ "' removed (breaking change)"],
     true)

/-- Body of the classifier's `for (const field of changes.added)` loop;
only the `(type changed)` branch sets `hasMajor`. -/
def classifyAddedStep (targetId : String) (a : List String × Bool) (field : String) :
    List String × Bool :=
  if strIncludes field "(type changed)" then
    (a.1 ++ ["[MAJOR] " ++ targetId ++ ": Type changed for '" ++ field ++
        "' (breaking change)"], true)
  else
    (a.1 ++ ["[MINOR] " ++ targetId ++ ": Field '" ++ field ++ "' added (additive change)"],
     a.2)

/-- Body of the classifier's loop over `Object.entries(diff)`. -/
def classifyEntryStep (acc : List String × Bool) (entry : String × DiffResult) :
    List String × Bool :=
  let acc1 :=
    if entry.2.removed.length > 0 then
      entry.2.removed.foldl (classifyRemovedStep entry.1) acc
    else acc
  entry.2.added.foldl (classifyAddedStep entry.1) acc1

/-- `classifySeverity` from `severity.ts`: the `for` loop over
`Object.entries(diff)` is translated to a left fold over the
association list, with accumulator `(reasons, hasMajor)`. -/
def classifySeverity (diff : List (String × DiffResult)) : SeverityClassification :=
  let res := diff.foldl classifyEntryStep ([], false)
  let severity : Severity := if res.2 then .major else .minor
  let reasons := if res.1.length = 0 then ["[MINOR] No significant changes detected"] else res.1
  { severity := severity, reasons := reasons }

/-- `hasChanges` from `severity.ts`. -/
def hasChanges (diff : List (String × DiffResult)) : Bool :=
  diff.any (fun e => e.2.added.length > 0 || e.2.removed.length > 0)

/-- Reason string produced by the classifier's `removed` loop for one
token (the two branches of the `[DEPRECATED]` test). -/
def removedReason (targetId field : String) : String :=
  if strIncludes field "[DEPRECATED]" then
    "[MAJOR] " ++ targetId ++ ": Deprecated field '" ++ field ++ "' removed"
  else
    "[MAJOR] " ++ targetId ++ ": Field '" ++ field ++ "' removed (breaking change)"

/-- Reason string produced by the classifier's `added` loop for one
token (the two branches of the `(type changed)` test). -/
def addedReason (targetId field : String) : String :=
  if strIncludes field "(type changed)" then
    "[MAJOR] " ++ targetId ++ ": Type changed for '" ++ field ++ "' (breaking change)"
  else
    "[MINOR] " ++ targetId ++ ": Field '" ++ field ++ "' added (additive change)"

/-- All reason strings of a diff map, in classifier emission order. -/
def flatReasons (diff : List (String × DiffResult)) : List String :=
  diff.flatMap (fun e => e.2.removed.map (removedReason e.1) ++ e.2.added.map (addedReason e.1))

/-- Whether some entry makes the classifier set `hasMajor`. -/
def anyMajor (diff : List (String × DiffResult)) : Bool :=
  diff.any (fun e =>
    !e.2.removed.isEmpty || e.2.added.any (fun f => strIncludes f "(type changed)"))

/-! ## GraphQL introspection extractor -/

/-- The `ofType` wrapper inside a field's type descriptor. -/
structure GraphQLOfType where
  name : Option String
  kind : String

/-- A field's type descriptor (`name?`, `kind`, `ofType?`). -/
structure GraphQLTypeRef where
  name : Option String
  kind : String
  ofType : Option GraphQLOfType

/-- A field of an introspected type. -/
structure GraphQLField where
  name : String
  isDeprecated : Bool
  type : GraphQLTypeRef

/-- An introspected type (`kind`, `name`, optional field list). -/
structure GraphQLType where
  kind : String
  name : String
  fields : Option (List GraphQLField)

/-- The `__schema` part of an introspection result (the root-operation
type names are not consulted by the extractor). -/
structure GraphQLIntrospectionResult where
  types : List GraphQLType

/-- JS `a || b` on an optional string: `b` when `a` is absent or empty
(falsy), else the string itself. -/
def jsOrString (a : Option String) (b : String) : String :=
  match a with
  | some s => if s = "" then b else s
  | none => b

/-- `field.type.ofType?.name || field.type.name || field.type.kind`. -/
def resolveFieldType (t : GraphQLTypeRef) : String :=
  jsOrString (t.ofType.bind (fun o => o.name)) (jsOrString t.name t.kind)

/-- The token built for one field:
`"<name>:<resolvedType>"`, with `"[DEPRECATED]"` appended when the
field is deprecated. -/
def fieldToken (f : GraphQLField) : String :=
  let fieldType := resolveFieldType f.type
  if f.isDeprecated then f.name ++ ":" ++ fieldType ++ "[DEPRECATED]"
  else f.name ++ ":" ++ fieldType

/-- JS `String.prototype.startsWith`, on the character lists. -/
def strStartsWith (s pre : String) : Bool :=
  List.isPrefixOf pre.data s.data

/-- Lexicographic comparison of character lists (the order used by the
default JS `Array.prototype.sort()` on strings). -/
def charListLe : List Char → List Char → Bool
  | [], _ => true
  | _ :: _, [] => false
  | a :: as, b :: bs =>
    if a < b then true
    else if b < a then false
    else charListLe as bs

/-- Lexicographic `≤` on strings as a computable comparator. -/
def strLe (a b : String) : Bool :=
  charListLe a.data b.data

/-- The ordering relation used for sorting token lists. -/
def strLeRel (a b : String) : Prop := strLe a b = true

instance : DecidableRel strLeRel := fun a b => decEq (strLe a b) true

/-- The `userTypes` filter of `extractGraphQLSchema`. -/
def isUserType (t : GraphQLType) : Bool :=
  !(strStartsWith t.name "__") && t.kind == "OBJECT" &&
    (match t.fields with
     | some fs => fs.length > 0
     | none => false) &&
    !(["Query", "Mutation", "Subscription"].contains t.name)

/-- `extractGraphQLSchema` from `introspection.ts`: filter to user-defined
object types, then map each to its sorted field-token list (JS
`Array.prototype.sort()` is lexicographic on strings; modelled with a
stable insertion sort under `≤`). -/
def extractGraphQLSchema (introspection : GraphQLIntrospectionResult) :
    List (String × List String) :=
  let userTypes := introspection.types.filter isUserType
  userTypes.map (fun t =>
    (t.name, List.insertionSort strLeRel ((t.fields.getD []).map fieldToken)))

/-- A small introspection fixture: one introspection meta-type, one root
operation type and one user-defined object type with an unsorted field
list. -/
def sampleIntrospection : GraphQLIntrospectionResult :=
  { types := [
      { kind := "OBJECT", name := "__Schema",
        fields := some [{ name := "types", isDeprecated := false,
                          type := { name := none, kind := "LIST", ofType := none } }] },
      { kind := "OBJECT", name := "Query",
        fields := some [{ name := "characters", isDeprecated := false,
                          type := { name := some "Character", kind := "OBJECT",
                                    ofType := none } }] },
      { kind := "OBJECT", name := "Character",
        fields := some [
          { name := "name", isDeprecated := false,
            type := { name := some "String", kind := "SCALAR", ofType := none } },
          { name := "id", isDeprecated := false,
            type := { name := none, kind := "NON_NULL",
                      ofType := some { name := some "ID", kind := "SCALAR" } } }] }] }

/-! ## Scheduling window and kill switch (`window.ts`) -/

/-- The whitespace class used by the JS `\s+` split (ASCII part). -/
def wsChar (c : Char) : Bool :=
  c = ' ' || c = '\t' || c = '\n' || c = '\r'

/-- Split a character list into maximal non-whitespace runs. -/
def wordsAux (cur : List Char) : List Char → List String
  | [] => if cur.isEmpty then [] else [String.mk cur.reverse]
  | c :: cs =>
    if wsChar c then
      if cur.isEmpty then wordsAux [] cs
      else String.mk cur.reverse :: wordsAux [] cs
    else wordsAux (c :: cur) cs

/-- JS `trim()` followed by `split(/\s+/)` on a cron expression. -/
def splitWhitespace (s : String) : List String :=
  wordsAux [] s.data

/-- `isWithinCronWindow` from `window.ts` (the current time is never
consulted: every branch of the simplified parser returns `true`). -/
def isWithinCronWindow (cronExpr : String) : Bool :=
  let parts := splitWhitespace cronExpr
  if parts.length ≠ 5 then true
  else
    match parts with
    | [minute, hour, dayOfMonth, month, dayOfWeek] =>
      if minute = "*" && hour = "*" && dayOfMonth = "*" && month = "*" && dayOfWeek = "*" then
        true
      else if strStartsWith minute "*/" then true
      else true
    | _ => true

/-- Result of `canRunNow`. -/
structure CanRunResult where
  allowed : Bool
  reason : Option String

/-- `canRunNow` from `window.ts`; the denial reason for the window branch
omits the current-time interpolation (real time is not modelled; the
branch is unreachable since `isWithinCronWindow` always allows). -/
def canRunNow (killSwitch : Bool) (windowCron : String) : CanRunResult :=
  if killSwitch then
    { allowed := false, reason := some "KILL_SWITCH is enabled - monitoring is disabled" }
  else if !(isWithinCronWindow windowCron) then
    { allowed := false,
      reason := some ("Current time is outside configured window: " ++ windowCron) }
  else { allowed := true, reason := none }

/-! ## Baseline store update (`update.ts`) -/

/-- The string form of a severity (`DRIFT_SEVERITY_GATE` is read from the
environment as a string and compared with `===`). -/
def sevString : Severity → String
  | .minor => "minor"
  | .major => "major"

/-- `UpdateResult` from `update.ts` (the generated PR-body markdown is
pure report formatting and is not modelled). -/
structure UpdateResult where
  success : Bool
  severity : Severity
  shouldBlock : Bool
deriving DecidableEq

/-- `SnapshotUpdateOptions` from `update.ts` (`snapshotPath` and
`aiSummary` feed only I/O and report formatting). -/
structure SnapshotUpdateOptions where
  newSnapshot : Snapshot
  classification : SeverityClassification
  affectedTargets : List String

/-- `updateSnapshotsPROnly` from `update.ts`: throws unless the mode is
`PR_ONLY`; otherwise computes `shouldBlock` and writes `newSnapshot` as
the full snapshot file.  The written document is returned alongside the
result to model the file write. -/
def updateSnapshotsPROnly (mode gate : String) (options : SnapshotUpdateOptions) :
    Except String (UpdateResult × Snapshot) :=
  if mode ≠ "PR_ONLY" then
    .error ("SNAPSHOT_UPDATE_MODE is '" ++ mode ++ "' but must be 'PR_ONLY' for safety")
  else
    let shouldBlock :=
      (sevString options.classification.severity == gate) ||
        (sevString options.classification.severity == "major")
    .ok ({ success := true, severity := options.classification.severity,
           shouldBlock := shouldBlock }, options.newSnapshot)

/-- `shouldBlockCI` from `update.ts`. -/
def shouldBlockCI (severity : Severity) (gate : String) : Bool :=
  (sevString severity == "major") || (sevString severity == gate)

/-! ## Drift orchestrator (`drift-check` CLI `main`) -/

/-- A monitored target (method, URL, headers and body only feed the
external fetch, which is modelled as an oracle from target id). -/
structure Target where
  id : String

/-- The report emitted at step 6 of the run. -/
inductive Report where
  | stable (totalTargets : Nat) : Report
  | drift (classification : SeverityClassification) (shouldBlock : Bool)
      (affectedTargets : List String) : Report
deriving DecidableEq

/-- Observable outcome of one `main` run. -/
structure RunResult where
  exitCode : Nat
  fetchesAttempted : Nat
  report : Option Report
  writtenSnapshot : Option Snapshot
  failureLogged : Option String
deriving DecidableEq

/-- The `current` map accumulated by the per-target fetch loop: one
entry per target whose fetch and extraction succeeded, in target order. -/
def currentOf (targets : List Target) (fetchResult : String → Option Signature) : Snapshot :=
  targets.filterMap (fun t => (fetchResult t.id).map (fun s => (t.id, s)))

/-- The `perTargetDiff` map accumulated by the per-target loop: the
diff against `previous[target.id] || {}`, kept only when non-empty. -/
def perTargetDiffOf (previous current : Snapshot) : List (String × DiffResult) :=
  current.filterMap (fun e =>
    let prev := (previous.lookup e.1).getD []
    let d := diffSchemas prev e.2
    if d.added.length > 0 || d.removed.length > 0 then some (e.1, d) else none)

/-- `main` of the hardened drift-check CLI, as a pure function of the
environment (`killSwitch`, `windowCron`, `mode`, `gate`), the target
list, a fetch oracle (`none` models a failed fetch/extraction, which the
per-target `catch` logs and skips) and the previous snapshot.
`assertCanRun`'s throw is caught by the top-level `catch`, which sets
exit code 1; a non-`PR_ONLY` mode throw is caught the same way. -/
def driftCheckMain (killSwitch : Bool) (windowCron mode gate : String)
    (targets : List Target) (fetchResult : String → Option Signature)
    (previous : Snapshot) : RunResult :=
  let check := canRunNow killSwitch windowCron
  if !check.allowed then
    { exitCode := 1, fetchesAttempted := 0, report := none, writtenSnapshot := none,
      failureLogged := some ("Cannot run monitoring: " ++ check.reason.getD "") }
  else
    let current : Snapshot := currentOf targets fetchResult
    let perTargetDiff : List (String × DiffResult) := perTargetDiffOf previous current
    let driftDetected := hasChanges perTargetDiff
    if !driftDetected then
      { exitCode := 0, fetchesAttempted := targets.length,
        report := some (.stable current.length), writtenSnapshot := none,
        failureLogged := none }
    else
      let classification := classifySeverity perTargetDiff
      match updateSnapshotsPROnly mode gate
          { newSnapshot := current, classification := classification,
            affectedTargets := perTargetDiff.map Prod.fst } with
      | .error e =>
        { exitCode := 1, fetchesAttempted := targets.length, report := none,
          writtenSnapshot := none, failureLogged := some e }
      | .ok (result, written) =>
        { exitCode := if result.shouldBlock then 1 else 0,
          fetchesAttempted := targets.length,
          report := some (.drift classification result.shouldBlock
            (perTargetDiff.map Prod.fst)),
          writtenSnapshot := some written, failureLogged := none }

/-! ## Basic lemmas about the helpers -/

theorem strIncludes_iff {s pat : String} : strIncludes s pat = true ↔ pat.data <:+: s.data := by
  simp [strIncludes]

theorem mem_dedupFirstAux {x : String} :
    ∀ (l seen : List String), x ∈ dedupFirstAux seen l ↔ x ∈ l ∧ x ∉ seen
  | [], seen => by simp [dedupFirstAux]
  | k :: ks, seen => by
    by_cases hk : k ∈ seen
    · rw [dedupFirstAux, if_pos hk, mem_dedupFirstAux ks seen]
      constructor
      · rintro ⟨h1, h2⟩; exact ⟨List.mem_cons_of_mem _ h1, h2⟩
      · rintro ⟨h1, h2⟩
        rcases List.mem_cons.mp h1 with h1 | h1
        · exact absurd (h1 ▸ hk) h2
        · exact ⟨h1, h2⟩
    · rw [dedupFirstAux, if_neg hk]
      simp only [List.mem_cons, mem_dedupFirstAux ks (k :: seen)]
      by_cases hxk : x = k
      · subst hxk; simp [hk]
      · simp only [hxk, false_or]

theorem mem_dedupFirst {x : String} {l : List String} : x ∈ dedupFirst l ↔ x ∈ l := by
  simp [dedupFirst, mem_dedupFirstAux]

theorem dedupFirst_ne_nil {l : List String} (h : l ≠ []) : dedupFirst l ≠ [] := by
  cases l with
  | nil => exact absurd rfl h
  | cons k ks => simp [dedupFirst, dedupFirstAux]

theorem lookup_eq_none_iff {β : Type} {l : List (String × β)} {k : String} :
    l.lookup k = none ↔ k ∉ l.map Prod.fst := by
  induction l with
  | nil => simp [List.lookup]
  | cons e es ih =>
    obtain ⟨a, b⟩ := e
    by_cases hk : k = a
    · subst hk; simp [List.lookup]
    · simp only [List.lookup, beq_eq_false_iff_ne.mpr hk, List.map_cons, List.mem_cons, ih]
      tauto

theorem lookup_mem_keys {β : Type} {l : List (String × β)} {k : String} {v : β}
    (h : l.lookup k = some v) : k ∈ l.map Prod.fst := by
  by_contra hk
  rw [← lookup_eq_none_iff] at hk
  rw [h] at hk
  exact Option.noConfusion hk

theorem lookup_isSome_of_mem_keys {β : Type} {l : List (String × β)} {k : String}
    (h : k ∈ l.map Prod.fst) : ∃ v, l.lookup k = some v := by
  rcases he : l.lookup k with _ | v
  · exact absurd (lookup_eq_none_iff.mp he) (by simpa using h)
  · exact ⟨v, rfl⟩

/-! ## Characterization of the classifier -/

theorem classifyRemovedStep_eq (t : String) (a : List String × Bool) (f : String) :
    classifyRemovedStep t a f = (a.1 ++ [removedReason t f], true) := by
  unfold classifyRemovedStep removedReason
  split <;> rfl

theorem classifyAddedStep_eq (t : String) (a : List String × Bool) (f : String) :
    classifyAddedStep t a f =
      (a.1 ++ [addedReason t f], a.2 || strIncludes f "(type changed)") := by
  unfold classifyAddedStep addedReason
  rcases h : strIncludes f "(type changed)" with _ | _ <;> simp [h]

theorem removed_foldl (t : String) :
    ∀ (fs : List String) (acc : List String × Bool),
      fs.foldl (classifyRemovedStep t) acc =
        (acc.1 ++ fs.map (removedReason t), acc.2 || !fs.isEmpty)
  | [], acc => by simp
  | f :: fs, acc => by
    rw [List.foldl_cons, removed_foldl t fs, classifyRemovedStep_eq]
    simp

theorem added_foldl (t : String) :
    ∀ (fs : List String) (acc : List String × Bool),
      fs.foldl (classifyAddedStep t) acc =
        (acc.1 ++ fs.map (addedReason t),
         acc.2 || fs.any (fun f => strIncludes f "(type changed)"))
  | [], acc => by simp
  | f :: fs, acc => by
    rw [List.foldl_cons, added_foldl t fs, classifyAddedStep_eq]
    simp [Bool.or_assoc]

theorem classifyEntryStep_eq (acc : List String × Bool) (e : String × DiffResult) :
    classifyEntryStep acc e =
      (acc.1 ++ e.2.removed.map (removedReason e.1) ++ e.2.added.map (addedReason e.1),
       acc.2 || (!e.2.removed.isEmpty ||
         e.2.added.any (fun f => strIncludes f "(type changed)"))) := by
  unfold classifyEntryStep
  rcases hrem : e.2.removed with _ | ⟨r, rs⟩
  · simp [added_foldl, Bool.or_assoc]
  · rw [if_pos (by simp), removed_foldl, added_foldl]
    simp [Bool.or_assoc]

theorem classify_foldl :
    ∀ (d : List (String × DiffResult)) (acc : List String × Bool),
      d.foldl classifyEntryStep acc = (acc.1 ++ flatReasons d, acc.2 || anyMajor d)
  | [], acc => by simp [flatReasons, anyMajor]
  | e :: d, acc => by
    rw [List.foldl_cons, classify_foldl d, classifyEntryStep_eq]
    simp [flatReasons, anyMajor, Bool.or_assoc]

theorem classifySeverity_eq (d : List (String × DiffResult)) :
    classifySeverity d =
      { severity := if anyMajor d then Severity.major else Severity.minor
        reasons :=
          if flatReasons d = [] then ["[MINOR] No significant changes detected"]
          else flatReasons d } := by
  unfold classifySeverity
  rw [classify_foldl]
  simp [List.length_eq_zero]

theorem anyMajor_iff {d : List (String × DiffResult)} :
    anyMajor d = true ↔
      ∃ e ∈ d, e.2.removed ≠ [] ∨ ∃ f ∈ e.2.added, strIncludes f "(type changed)" = true := by
  simp [anyMajor, List.any_eq_true, List.isEmpty_eq_true]

/-! ## String prefix/infix helpers for reason tags -/

theorem prefix_append_of_prefix {a b c : List Char} (h : a <+: b) : a <+: b ++ c :=
  h.trans (List.prefix_append b c)

theorem prefix_str_append {p a : String} (b : String) (h : p.data <+: a.data) :
    p.data <+: (a ++ b).data := by
  rw [String.data_append]
  exact prefix_append_of_prefix h

theorem infix_str_append_left {pat a : String} (b : String) (h : pat.data <:+: b.data) :
    pat.data <:+: (a ++ b).data := by
  rw [String.data_append]
  obtain ⟨s, t, hst⟩ := h
  exact ⟨a.data ++ s, t, by rw [← hst]; simp⟩

theorem infix_str_append_right {pat a : String} (b : String) (h : pat.data <:+: a.data) :
    pat.data <:+: (a ++ b).data := by
  rw [String.data_append]
  obtain ⟨s, t, hst⟩ := h
  exact ⟨s, t ++ b.data, by rw [← hst]; simp⟩

theorem removedReason_major_tag (t f : String) :
    "[MAJOR]".data <+: (removedReason t f).data := by
  have base : "[MAJOR]".data <+: ("[MAJOR] " ++ t).data := by
    rw [String.data_append]
    exact prefix_append_of_prefix (by decide)
  unfold removedReason
  split
  · exact prefix_str_append _ (prefix_str_append _ (prefix_str_append _ base))
  · exact prefix_str_append _ (prefix_str_append _ (prefix_str_append _ base))

theorem removedReason_deprecated_note (t f : String)
    (h : strIncludes f "[DEPRECATED]" = true) :
    strIncludes (removedReason t f) "Deprecated" = true := by
  unfold removedReason
  rw [if_pos h]
  rw [strIncludes_iff]
  exact infix_str_append_right "' removed"
    (infix_str_append_right f (infix_str_append_left ": Deprecated field '" (by decide)))

theorem addedReason_major_tag (t f : String) (h : strIncludes f "(type changed)" = true) :
    "[MAJOR]".data <+: (addedReason t f).data := by
  have base : "[MAJOR]".data <+: ("[MAJOR] " ++ t).data := by
    rw [String.data_append]
    exact prefix_append_of_prefix (by decide)
  unfold addedReason
  rw [if_pos h]
  exact prefix_str_append _ (prefix_str_append _ (prefix_str_append _ base))

theorem addedReason_minor_tag (t f : String) (h : strIncludes f "(type changed)" = false) :
    "[MINOR]".data <+: (addedReason t f).data := by
  have base : "[MINOR]".data <+: ("[MINOR] " ++ t).data := by
    rw [String.data_append]
    exact prefix_append_of_prefix (by decide)
  unfold addedReason
  rw [if_neg (by simp [h])]
  exact prefix_str_append _ (prefix_str_append _ (prefix_str_append _ base))

/-! ## Claim theorems about the classifier -/

/-- C3: `classifySeverity` returns aggregate severity `major` iff some
target has a non-empty `removed` list or some `added` entry contains the
type-changed marker, and `minor` otherwise; its reasons are exactly the
concatenation, per entry, of one reason per removed token (always tagged
`[MAJOR]`, noting the deprecation when the token carries the
`[DEPRECATED]` suffix) followed by one reason per added token (tagged
`[MAJOR]` for type-changed tokens and `[MINOR]` otherwise), with a
single default reason when there are none. -/
theorem classifySeverity_spec (d : List (String × DiffResult)) :
    ((classifySeverity d).severity = Severity.major ↔
      ∃ e ∈ d, e.2.removed ≠ [] ∨ ∃ f ∈ e.2.added, strIncludes f "(type changed)" = true)
    ∧ ((classifySeverity d).severity = Severity.minor ↔
      ¬ ∃ e ∈ d, e.2.removed ≠ [] ∨ ∃ f ∈ e.2.added, strIncludes f "(type changed)" = true)
    ∧ (classifySeverity d).reasons =
        (if flatReasons d = [] then ["[MINOR] No significant changes detected"]
         else flatReasons d)
    ∧ (∀ t f, "[MAJOR]".data <+: (removedReason t f).data)
    ∧ (∀ t f, strIncludes f "[DEPRECATED]" = true →
        strIncludes (removedReason t f) "Deprecated" = true)
    ∧ (∀ t f, strIncludes f "(type changed)" = true →
        "[MAJOR]".data <+: (addedReason t f).data)
    ∧ (∀ t f, strIncludes f "(type changed)" = false →
        "[MINOR]".data <+: (addedReason t f).data) := by
  rw [classifySeverity_eq]
  refine ⟨?_, ?_, rfl, removedReason_major_tag, removedReason_deprecated_note,
    addedReason_major_tag, addedReason_minor_tag⟩
  · rw [← anyMajor_iff]
    rcases h : anyMajor d with _ | _ <;> simp [h]
  · rw [← anyMajor_iff]
    rcases h : anyMajor d with _ | _ <;> simp [h]

/-- Witness for C3 at a concrete diff map: a deprecated removal and a
type-changed addition both classify as `major`, with the deprecation
noted in the reason. -/
theorem classifySeverity_spec_witness :
    (classifySeverity [("api", { added := ["n (type changed)"], removed := ["old[DEPRECATED]"] })]).severity
      = Severity.major
    ∧ strIncludes (removedReason "api" "old[DEPRECATED]") "Deprecated" = true
    ∧ "[MAJOR]".data <+: (addedReason "api" "n (type changed)").data
    ∧ "[MINOR]".data <+: (addedReason "api" "plain").data := by
  have h := classifySeverity_spec
    [("api", { added := ["n (type changed)"], removed := ["old[DEPRECATED]"] })]
  refine ⟨h.1.mpr ⟨_, List.mem_singleton_self _, Or.inl (by decide)⟩,
    h.2.2.2.2.1 "api" "old[DEPRECATED]" (by decide),
    h.2.2.2.2.2.1 "api" "n (type changed)" (by decide),
    h.2.2.2.2.2.2 "api" "plain" (by decide)⟩

/-- C7: for an empty diff map, or one whose entries all have empty
`added` and `removed`, `classifySeverity` returns `minor` with exactly
the single default no-significant-changes reason; and for every input
the returned reasons list is non-empty. -/
theorem classifySeverity_never_empty (d : List (String × DiffResult)) :
    ((d = [] ∨ ∀ e ∈ d, e.2.added = [] ∧ e.2.removed = []) →
      classifySeverity d =
        { severity := Severity.minor,
          reasons := ["[MINOR] No significant changes detected"] })
    ∧ (classifySeverity d).reasons ≠ [] := by
  rw [classifySeverity_eq]
  constructor
  · intro h
    have hflat : flatReasons d = [] := by
      rcases h with h | h
      · subst h; rfl
      · rw [flatReasons, List.flatMap_eq_nil_iff]
        intro e he
        rw [(h e he).1, (h e he).2]
        rfl
    have hmaj : anyMajor d = false := by
      rcases h with h | h
      · subst h; rfl
      · rw [anyMajor, List.any_eq_false]
        intro e he
        simp [(h e he).1, (h e he).2]
    rw [hflat, hmaj]
    simp
  · rcases hf : flatReasons d with _ | ⟨r, rs⟩
    · simp [hf]
    · simp [hf]

/-- Witness for C7: a diff map with one all-empty entry yields the
single default minor reason, and the reasons list is non-empty. -/
theorem classifySeverity_never_empty_witness :
    classifySeverity [("api", { added := [], removed := [] })] =
      { severity := Severity.minor,
        reasons := ["[MINOR] No significant changes detected"] }
    ∧ (classifySeverity [("api", { added := [], removed := [] })]).reasons ≠ [] := by
  have h := classifySeverity_never_empty [("api", { added := [], removed := [] })]
  exact ⟨h.1 (Or.inr (by simp)), h.2⟩

/-! ## Claim theorem about the baseline-store update -/

/-- C6: in the enforced `PR_ONLY` mode the update returns a result whose
`shouldBlock` is true iff the aggregate severity is `major` or its
string form equals the configured gate; the snapshot written is always
the full `newSnapshot` and the result reports success, independent of
the flag — the store does not enforce the gate beyond returning it. -/
theorem updateSnapshotsPROnly_spec (mode gate : String) (o : SnapshotUpdateOptions)
    (h : mode = "PR_ONLY") :
    updateSnapshotsPROnly mode gate o =
      .ok ({ success := true, severity := o.classification.severity,
             shouldBlock := shouldBlockCI o.classification.severity gate }, o.newSnapshot)
    ∧ (shouldBlockCI o.classification.severity gate = true ↔
        (o.classification.severity = Severity.major ∨
          sevString o.classification.severity = gate)) := by
  subst h
  constructor
  · unfold updateSnapshotsPROnly shouldBlockCI
    rw [if_neg (by simp)]
    simp [Bool.or_comm]
  · unfold shouldBlockCI
    rcases o.classification.severity with _ | _ <;> simp [sevString]

/-- Witness for C6 at a concrete input: gate `minor` with a minor
classification blocks, and the full snapshot is written. -/
theorem updateSnapshotsPROnly_spec_witness :
    "PR_ONLY" = "PR_ONLY"
    ∧ (updateSnapshotsPROnly "PR_ONLY" "minor"
        { newSnapshot := [("t", [("a", SchemaValue.str "string")])],
          classification := { severity := Severity.minor, reasons := ["r"] },
          affectedTargets := ["t"] } =
        .ok ({ success := true, severity := Severity.minor,
               shouldBlock := shouldBlockCI Severity.minor "minor" },
          [("t", [("a", SchemaValue.str "string")])])
      ∧ (shouldBlockCI Severity.minor "minor" = true ↔
          (Severity.minor = Severity.major ∨ sevString Severity.minor = "minor"))) :=
  ⟨rfl, updateSnapshotsPROnly_spec "PR_ONLY" "minor"
    { newSnapshot := [("t", [("a", SchemaValue.str "string")])],
      classification := { severity := Severity.minor, reasons := ["r"] },
      affectedTargets := ["t"] } rfl⟩

/-! ## Claim theorem about the differ's type-change handling -/

/-- C5: for a key present in both signatures with differing scalar
values, the differ emits exactly the single token `<key> (type changed)`
into `added` and nothing into `removed` for that key, and the token
appears in the diff's `added` list. -/
theorem diffSchemas_type_change (prev curr : Signature) (key pv cv : String)
    (hp : prev.lookup key = some (.str pv)) (hc : curr.lookup key = some (.str cv))
    (hne : pv ≠ cv) :
    diffKey prev curr key = ([key ++ " (type changed)"], [])
    ∧ (key ++ " (type changed)") ∈ (diffSchemas prev curr).added := by
  have hv : SchemaValue.str pv ≠ SchemaValue.str cv := by
    intro hcontra
    exact hne (by injection hcontra)
  have hdk : diffKey prev curr key = ([key ++ " (type changed)"], []) := by
    unfold diffKey
    rw [hp, hc]
    simp [hv]
  refine ⟨hdk, ?_⟩
  have hmem : key ∈ dedupFirst (prev.map Prod.fst ++ curr.map Prod.fst) :=
    mem_dedupFirst.mpr (List.mem_append.mpr (Or.inl (lookup_mem_keys hp)))
  show (key ++ " (type changed)") ∈
    (dedupFirst (prev.map Prod.fst ++ curr.map Prod.fst)).flatMap
      (fun k => (diffKey prev curr k).1)
  exact List.mem_flatMap.mpr ⟨key, hmem, by rw [hdk]; exact List.mem_singleton_self _⟩

/-- Witness for C5 at a concrete pair of signatures: `a` goes from
`string` to `number`. -/
theorem diffSchemas_type_change_witness :
    [("a", SchemaValue.str "string")].lookup "a" = some (SchemaValue.str "string")
    ∧ [("a", SchemaValue.str "number")].lookup "a" = some (SchemaValue.str "number")
    ∧ "string" ≠ "number"
    ∧ (diffKey [("a", SchemaValue.str "string")] [("a", SchemaValue.str "number")] "a" =
        (["a (type changed)"], [])
      ∧ ("a" ++ " (type changed)") ∈
          (diffSchemas [("a", SchemaValue.str "string")]
            [("a", SchemaValue.str "number")]).added) := by
  refine ⟨rfl, rfl, by decide, ?_⟩
  have h := diffSchemas_type_change [("a", SchemaValue.str "string")]
    [("a", SchemaValue.str "number")] "a" "string" "number" rfl rfl (by decide)
  exact ⟨by rw [h.1]; rfl, h.2⟩

/-! ## Orchestrator evaluation lemmas -/

theorem isWithinCronWindow_true (cron : String) : isWithinCronWindow cron = true := by
  simp only [isWithinCronWindow]
  split
  · rfl
  · split
    · split
      · rfl
      · split
        · rfl
        · rfl
    · rfl

theorem canRunNow_false (cron : String) :
    canRunNow false cron = { allowed := true, reason := none } := by
  simp [canRunNow, isWithinCronWindow_true]

theorem updateSnapshotsPROnly_PRonly (gate : String) (o : SnapshotUpdateOptions) :
    updateSnapshotsPROnly "PR_ONLY" gate o =
      .ok ({ success := true, severity := o.classification.severity,
             shouldBlock := (sevString o.classification.severity == gate) ||
               (sevString o.classification.severity == "major") }, o.newSnapshot) := by
  unfold updateSnapshotsPROnly
  rw [if_neg (by simp)]

theorem driftCheckMain_unfolded (cron mode gate : String) (targets : List Target)
    (f : String → Option Signature) (previous : Snapshot) :
    driftCheckMain false cron mode gate targets f previous =
      (if hasChanges (perTargetDiffOf previous (currentOf targets f)) = false then
        { exitCode := 0, fetchesAttempted := targets.length,
          report := some (.stable (currentOf targets f).length),
          writtenSnapshot := none, failureLogged := none }
      else
        match updateSnapshotsPROnly mode gate
            { newSnapshot := currentOf targets f,
              classification :=
                classifySeverity (perTargetDiffOf previous (currentOf targets f)),
              affectedTargets :=
                (perTargetDiffOf previous (currentOf targets f)).map Prod.fst } with
        | .error e =>
          { exitCode := 1, fetchesAttempted := targets.length, report := none,
            writtenSnapshot := none, failureLogged := some e }
        | .ok (result, written) =>
          { exitCode := if result.shouldBlock then 1 else 0,
            fetchesAttempted := targets.length,
            report := some (.drift
              (classifySeverity (perTargetDiffOf previous (currentOf targets f)))
              result.shouldBlock
              ((perTargetDiffOf previous (currentOf targets f)).map Prod.fst)),
            writtenSnapshot := some written, failureLogged := none }) := by
  unfold driftCheckMain
  rw [canRunNow_false]
  rcases h : hasChanges (perTargetDiffOf previous (currentOf targets f)) with _ | _
  · simp [h]
  · simp [h]

theorem diffKey_nil_left {sig : Signature} {k : String} {v : SchemaValue}
    (h : sig.lookup k = some v) : diffKey [] sig k = ([k], []) := by
  unfold diffKey
  rw [h]
  rfl

theorem flatMap_id_of_singleton {g : String → List String} :
    ∀ l : List String, (∀ k ∈ l, g k = [k]) → l.flatMap g = l
  | [], _ => rfl
  | k :: ks, h => by
    rw [List.flatMap_cons, h k (List.mem_cons_self k ks),
      flatMap_id_of_singleton ks (fun x hx => h x (List.mem_cons_of_mem k hx))]
    rfl

theorem diffSchemas_nil_left (sig : Signature) :
    diffSchemas [] sig = { added := dedupFirst (sig.map Prod.fst), removed := [] } := by
  have hkeys : List.map Prod.fst ([] : Signature) ++ sig.map Prod.fst = sig.map Prod.fst := by
    simp
  simp only [diffSchemas, hkeys]
  have hget : ∀ k ∈ dedupFirst (sig.map Prod.fst), ∃ v, sig.lookup k = some v :=
    fun k hk => lookup_isSome_of_mem_keys (mem_dedupFirst.mp hk)
  have h1 : ∀ k ∈ dedupFirst (sig.map Prod.fst), (diffKey [] sig k).1 = [k] := by
    intro k hk
    obtain ⟨v, hv⟩ := hget k hk
    rw [diffKey_nil_left hv]
  have h2 : ∀ k ∈ dedupFirst (sig.map Prod.fst), (diffKey [] sig k).2 = [] := by
    intro k hk
    obtain ⟨v, hv⟩ := hget k hk
    rw [diffKey_nil_left hv]
  rw [flatMap_id_of_singleton _ h1, List.flatMap_eq_nil_iff.mpr h2]

theorem currentOf_lookup_none {f : String → Option Signature} {id : String}
    (hid : f id = none) :
    ∀ targets : List Target, (currentOf targets f).lookup id = none := by
  intro targets
  induction targets with
  | nil => rfl
  | cons t ts ih =>
    rcases hft : f t.id with _ | s
    · simpa only [currentOf, List.filterMap_cons, hft] using ih
    · have hne : (id == t.id) = false := by
        apply beq_eq_false_iff_ne.mpr
        intro hcontra
        rw [hcontra, hft] at hid
        exact Option.noConfusion hid
      simp only [currentOf, List.filterMap_cons, hft, Option.map_some', List.lookup, hne]
      exact ih

theorem currentOf_lookup_some {f : String → Option Signature} :
    ∀ (targets : List Target) (t : Target), t ∈ targets → ∀ sig, f t.id = some sig →
      (currentOf targets f).lookup t.id = some sig := by
  intro targets
  induction targets with
  | nil => intro t ht; exact absurd ht (List.not_mem_nil t)
  | cons t' ts ih =>
    intro t ht sig hsig
    rcases List.mem_cons.mp ht with h | h
    · subst h
      simp only [currentOf, List.filterMap_cons, hsig, Option.map_some']
      simp [List.lookup]
    · rcases hft : f t'.id with _ | s
      · simpa only [currentOf, List.filterMap_cons, hft] using ih t h sig hsig
      · by_cases hid : t.id = t'.id
        · rw [hid] at hsig ⊢
          rw [hft] at hsig
          have hs : s = sig := Option.some.inj hsig
          simp only [currentOf, List.filterMap_cons, hft, Option.map_some']
          simp [List.lookup, hs]
        · have hne : (t.id == t'.id) = false := beq_eq_false_iff_ne.mpr hid
          simp only [currentOf, List.filterMap_cons, hft, Option.map_some', List.lookup, hne]
          exact ih t h sig hsig

/-! ## Claim theorems about the orchestrator -/

/-- C4 counterexample: with the kill switch on, the run's terminal state
is the generic failure path — exit code 1 with the failure logged — not
a non-failed "skipped" outcome, contradicting the claim that the
terminal state does not report the run as failed. -/
theorem preflight_denied_counterexample :
    (driftCheckMain true "*/30 * * * *" "PR_ONLY" "major" [⟨"t"⟩] (fun _ => none)
      []).exitCode = 1
    ∧ (driftCheckMain true "*/30 * * * *" "PR_ONLY" "major" [⟨"t"⟩] (fun _ => none)
        []).fetchesAttempted = 0
    ∧ (driftCheckMain true "*/30 * * * *" "PR_ONLY" "major" [⟨"t"⟩] (fun _ => none)
        []).failureLogged ≠ none := by
  refine ⟨rfl, rfl, by decide⟩

/-- C4 (amended): when the kill switch denies the preflight, the run
aborts before any fetch (zero fetches attempted) with a reason string,
but the abort is surfaced through the generic failure path:
`assertCanRun` throws, the top-level catch logs the failure, and the
exit code is 1 — the same terminal state as any fatal error, with no
distinct "skipped" outcome. -/
theorem preflight_denied_aborts_as_failure (cron mode gate : String)
    (targets : List Target) (f : String → Option Signature) (previous : Snapshot) :
    driftCheckMain true cron mode gate targets f previous =
      { exitCode := 1, fetchesAttempted := 0, report := none, writtenSnapshot := none,
        failureLogged :=
          some "Cannot run monitoring: KILL_SWITCH is enabled - monitoring is disabled" } :=
  rfl

/-- C1 counterexample: on a first run (empty baseline) with one
reachable target whose signature has field `x`, the orchestrator's
report is a drift alert (with the all-added diff classified `minor`),
not a stable/success report. -/
theorem firstRun_drift_counterexample :
    (driftCheckMain false "*/30 * * * *" "PR_ONLY" "major" [⟨"c1"⟩]
      (fun _ => some [("x", SchemaValue.str "string")]) []).report =
      some (.drift
        { severity := Severity.minor,
          reasons := ["[MINOR] c1: Field 'x' added (additive change)"] }
        false ["c1"])
    ∧ (driftCheckMain false "*/30 * * * *" "PR_ONLY" "major" [⟨"c1"⟩]
        (fun _ => some [("x", SchemaValue.str "string")]) []).report ≠
      some (.stable 1) := by
  refine ⟨by decide, by decide⟩

/-- C1 (amended): a first-run target (no baseline entry) with a
non-empty fetched signature produces the all-added diff
(`added` = the signature's keys, `removed` = `[]`), and the orchestrator
treats it like any other non-empty diff: the run is reported as drift,
not as stable. -/
theorem firstRun_reported_as_drift (cron gate : String) (tgt : Target)
    (f : String → Option Signature) (sig : Signature)
    (hf : f tgt.id = some sig) (hne : sig ≠ []) :
    diffSchemas [] sig = { added := dedupFirst (sig.map Prod.fst), removed := [] }
    ∧ ∃ b, (driftCheckMain false cron "PR_ONLY" gate [tgt] f []).report =
        some (.drift (classifySeverity [(tgt.id, diffSchemas [] sig)]) b [tgt.id]) := by
  have hd := diffSchemas_nil_left sig
  refine ⟨hd, ?_⟩
  have hkeys : sig.map Prod.fst ≠ [] := fun h => hne (List.map_eq_nil_iff.mp h)
  have hlen : 0 < (diffSchemas [] sig).added.length := by
    rw [hd]
    exact List.length_pos.mpr (dedupFirst_ne_nil hkeys)
  have hcur : currentOf [tgt] f = [(tgt.id, sig)] := by
    simp [currentOf, hf]
  have hptd : perTargetDiffOf [] (currentOf [tgt] f) = [(tgt.id, diffSchemas [] sig)] := by
    rw [hcur]
    simp only [perTargetDiffOf, List.filterMap_cons, List.filterMap_nil]
    simp [hlen]
  have hch : hasChanges (perTargetDiffOf [] (currentOf [tgt] f)) = true := by
    rw [hptd]
    simp [hasChanges, hlen]
  rw [driftCheckMain_unfolded]
  rw [hch]
  simp only [Bool.true_eq_false, if_false]
  rw [updateSnapshotsPROnly_PRonly]
  rw [hptd]
  exact ⟨_, rfl⟩

/-- Witness for the amended C1 at a concrete first run: target `t`
fetches `{x: "string"}` against an empty baseline. -/
theorem firstRun_reported_as_drift_witness :
    (fun _ => some [("x", SchemaValue.str "string")] : String → Option Signature)
        (Target.id ⟨"t"⟩) = some [("x", SchemaValue.str "string")]
    ∧ ([("x", SchemaValue.str "string")] : Signature) ≠ []
    ∧ (diffSchemas [] [("x", SchemaValue.str "string")] =
        { added := dedupFirst ([("x", SchemaValue.str "string")].map Prod.fst),
          removed := [] }
      ∧ ∃ b, (driftCheckMain false "*/30 * * * *" "PR_ONLY" "major" [⟨"t"⟩]
          (fun _ => some [("x", SchemaValue.str "string")]) []).report =
          some (.drift
            (classifySeverity
              [(Target.id ⟨"t"⟩, diffSchemas [] [("x", SchemaValue.str "string")])])
            b [Target.id ⟨"t"⟩])) :=
  ⟨rfl, by decide,
    firstRun_reported_as_drift "*/30 * * * *" "major" ⟨"t"⟩
      (fun _ => some [("x", SchemaValue.str "string")])
      [("x", SchemaValue.str "string")] rfl (by decide)⟩

/-- C2 counterexample: target `a` changes type (so the drift path writes
the snapshot) while target `b` is unreachable; the written mapping no
longer contains `b`, although the previous baseline did — the write does
not preserve the unreachable target's last-known entry. -/
theorem snapshot_drops_unreachable_counterexample :
    (driftCheckMain false "*/30 * * * *" "PR_ONLY" "major" [⟨"a"⟩, ⟨"b"⟩]
      (fun id => if id = "a" then some [("x", SchemaValue.str "number")] else none)
      [("a", [("x", SchemaValue.str "string")]),
       ("b", [("y", SchemaValue.str "string")])]).writtenSnapshot =
      some [("a", [("x", SchemaValue.str "number")])]
    ∧ ([("a", [("x", SchemaValue.str "number")])] : Snapshot).lookup "b" = none
    ∧ ([("a", [("x", SchemaValue.str "string")]),
        ("b", [("y", SchemaValue.str "string")])] : Snapshot).lookup "b" =
      some [("y", SchemaValue.str "string")] := by
  refine ⟨by decide, rfl, rfl⟩

/-- C2 (amended): whenever the run writes a baseline, the written
document is exactly the `current` map of successfully fetched targets:
a target whose fetch failed is absent from the persisted mapping (its
last-known entry is dropped, not preserved), while every successfully
fetched target's entry is replaced with its fresh signature. -/
theorem snapshotWrite_replaces_whole_mapping (cron gate : String) (targets : List Target)
    (f : String → Option Signature) (previous : Snapshot) (w : Snapshot)
    (hw : (driftCheckMain false cron "PR_ONLY" gate targets f previous).writtenSnapshot =
      some w) :
    w = currentOf targets f
    ∧ (∀ id, f id = none → w.lookup id = none)
    ∧ (∀ t ∈ targets, ∀ sig, f t.id = some sig → w.lookup t.id = some sig) := by
  have hwc : w = currentOf targets f := by
    rw [driftCheckMain_unfolded] at hw
    rcases h : hasChanges (perTargetDiffOf previous (currentOf targets f)) with _ | _
    · rw [h] at hw
      simp at hw
    · rw [h] at hw
      rw [updateSnapshotsPROnly_PRonly] at hw
      simp at hw
      exact hw.symm
  subst hwc
  exact ⟨rfl, fun id hid => currentOf_lookup_none hid targets,
    fun t ht sig hsig => currentOf_lookup_some targets t ht sig hsig⟩

/-- Witness for the amended C2: target `ok` is refetched with a changed
signature, target `down` fails; the written snapshot is the current map,
`down` is absent from it and `ok` maps to the fresh signature. -/
theorem snapshotWrite_replaces_whole_mapping_witness :
    (driftCheckMain false "0 9 * * *" "PR_ONLY" "major" [⟨"ok"⟩, ⟨"down"⟩]
      (fun id => if id = "ok" then some [("k", SchemaValue.str "number")] else none)
      [("ok", [("k", SchemaValue.str "string")]),
       ("down", [("z", SchemaValue.str "null")])]).writtenSnapshot =
      some [("ok", [("k", SchemaValue.str "number")])]
    ∧ (([("ok", [("k", SchemaValue.str "number")])] : Snapshot) =
        currentOf [⟨"ok"⟩, ⟨"down"⟩]
          (fun id => if id = "ok" then some [("k", SchemaValue.str "number")] else none)
      ∧ (∀ id, (fun id => if id = "ok" then some [("k", SchemaValue.str "number")]
            else none : String → Option Signature) id = none →
          ([("ok", [("k", SchemaValue.str "number")])] : Snapshot).lookup id = none)
      ∧ (∀ t ∈ ([⟨"ok"⟩, ⟨"down"⟩] : List Target), ∀ sig,
          (fun id => if id = "ok" then some [("k", SchemaValue.str "number")]
            else none : String → Option Signature) t.id = some sig →
          ([("ok", [("k", SchemaValue.str "number")])] : Snapshot).lookup t.id =
            some sig)) :=
  ⟨by decide,
    snapshotWrite_replaces_whole_mapping "0 9 * * *" "major" [⟨"ok"⟩, ⟨"down"⟩]
      (fun id => if id = "ok" then some [("k", SchemaValue.str "number")] else none)
      [("ok", [("k", SchemaValue.str "string")]),
       ("down", [("z", SchemaValue.str "null")])]
      [("ok", [("k", SchemaValue.str "number")])] (by decide)⟩

/-! ## Lexicographic comparator: totality and transitivity -/

theorem charListLe_total : ∀ a b : List Char, charListLe a b = true ∨ charListLe b a = true
  | [], _ => Or.inl rfl
  | _ :: _, [] => Or.inr rfl
  | x :: xs, y :: ys => by
    rcases lt_trichotomy x y with h | h | h
    · left; simp [charListLe, h]
    · subst h
      rcases charListLe_total xs ys with ih | ih
      · left; simp [charListLe, lt_self_iff_false, ih]
      · right; simp [charListLe, lt_self_iff_false, ih]
    · right; simp [charListLe, h]

theorem charListLe_trans :
    ∀ a b c : List Char, charListLe a b = true → charListLe b c = true →
      charListLe a c = true
  | [], _, _ => fun _ _ => rfl
  | x :: xs, [], _ => fun hab _ => by simp [charListLe] at hab
  | _ :: _, _ :: _, [] => fun _ hbc => by simp [charListLe] at hbc
  | x :: xs, y :: ys, z :: zs => fun hab hbc => by
    simp only [charListLe] at hab hbc ⊢
    rcases lt_trichotomy x y with h1 | h1 | h1
    · rcases lt_trichotomy y z with h2 | h2 | h2
      · rw [if_pos (lt_trans h1 h2)]
      · subst h2; rw [if_pos h1]
      · rw [if_neg (asymm h2), if_pos h2] at hbc
        exact absurd hbc (by simp)
    · subst h1
      rw [if_neg (lt_irrefl x), if_neg (lt_irrefl x)] at hab
      rcases lt_trichotomy x z with h2 | h2 | h2
      · rw [if_pos h2]
      · subst h2
        rw [if_neg (lt_irrefl x), if_neg (lt_irrefl x)] at hbc ⊢
        exact charListLe_trans xs ys zs hab hbc
      · rw [if_neg (asymm h2), if_pos h2] at hbc
        exact absurd hbc (by simp)
    · rw [if_neg (asymm h1), if_pos h1] at hab
      exact absurd hab (by simp)

instance : IsTotal String strLeRel :=
  ⟨fun a b => charListLe_total a.data b.data⟩

instance : IsTrans String strLeRel :=
  ⟨fun a b c hab hbc => charListLe_trans a.data b.data c.data hab hbc⟩

/-! ## Claim theorem about the GraphQL extractor -/

/-- C8: every entry of the extracted GraphQL signature has a type name
that does not start with the introspection-reserved prefix `__` and is
none of the three root operation type names, and its field-token list
(`<fieldName>:<resolvedTypeName>` with `[DEPRECATED]` appended for
deprecated fields) is sorted lexicographically. -/
theorem extractGraphQLSchema_spec (introspection : GraphQLIntrospectionResult) :
    ∀ entry ∈ extractGraphQLSchema introspection,
      strStartsWith entry.1 "__" = false
      ∧ (["Query", "Mutation", "Subscription"].contains entry.1) = false
      ∧ List.Sorted strLeRel entry.2 := by
  intro entry he
  simp only [extractGraphQLSchema, List.mem_map] at he
  obtain ⟨t, ht, rfl⟩ := he
  have hu : isUserType t = true := (List.mem_filter.mp ht).2
  unfold isUserType at hu
  simp only [Bool.and_eq_true, Bool.not_eq_true'] at hu
  exact ⟨hu.1.1.1, hu.2, List.sorted_insertionSort strLeRel _⟩

/-- Witness for C8 against the fixture introspection: the retained
`Character` entry is neither reserved nor a root type, and its tokens
come out sorted. -/
theorem extractGraphQLSchema_spec_witness :
    ("Character", ["id:ID", "name:String"]) ∈ extractGraphQLSchema sampleIntrospection
    ∧ (strStartsWith ("Character", ["id:ID", "name:String"]).1 "__" = false
      ∧ (["Query", "Mutation", "Subscription"].contains
          ("Character", ["id:ID", "name:String"]).1) = false
      ∧ List.Sorted strLeRel ("Character", ["id:ID", "name:String"]).2) :=
  ⟨by decide, extractGraphQLSchema_spec sampleIntrospection
    ("Character", ["id:ID", "name:String"]) (by decide)⟩

/-! ## Claim theorems about the REST Level-1 extractor -/

/-- C9 counterexample: the empty top-level JSON array yields the empty
signature, contradicting the claim that a top-level array never yields
the empty signature and that only null and non-object primitives do. -/
theorem buildLevel1Schema_empty_array_counterexample :
    buildLevel1Schema (Json.arr []) = [] := rfl

/-- C9 (amended): a top-level JSON array yields the signature mapping
each index string `"0", "1", ...` to the kind tag of the corresponding
element — in particular non-empty arrays never yield the empty
signature — and the empty signature arises exactly for null, non-object
primitives, the empty array and the empty object. -/
theorem buildLevel1Schema_array_spec :
    (∀ l : List Json, buildLevel1Schema (Json.arr l) =
        l.enum.map (fun p => (toString p.1, typeOfValue p.2)))
    ∧ (∀ j : Json, buildLevel1Schema j = [] ↔
        (j = Json.null ∨ (∃ b, j = Json.bool b) ∨ (∃ n, j = Json.num n) ∨
          (∃ s, j = Json.str s) ∨ j = Json.arr [] ∨ j = Json.obj [])) := by
  constructor
  · intro l; rfl
  · intro j
    cases j with
    | null => simp [buildLevel1Schema]
    | bool b => simp [buildLevel1Schema]
    | num n => simp [buildLevel1Schema]
    | str s => simp [buildLevel1Schema]
    | arr l =>
      cases l with
      | nil => simp [buildLevel1Schema]
      | cons x xs => simp [buildLevel1Schema]
    | obj kvs =>
      cases kvs with
      | nil => simp [buildLevel1Schema]
      | cons e es => simp [buildLevel1Schema]

/-- Witness for the amended C9: a two-element top-level array maps its
index strings to the element kind tags. -/
theorem buildLevel1Schema_array_spec_witness :
    buildLevel1Schema (Json.arr [Json.null, Json.str "a"]) =
      ([Json.null, Json.str "a"].enum.map (fun p => (toString p.1, typeOfValue p.2))) :=
  buildLevel1Schema_array_spec.1 [Json.null, Json.str "a"]

/-! ## Shape of the per-key differ emissions -/

theorem diffKey_added_mem {prev curr : Signature} {key tok : String}
    (h : tok ∈ (diffKey prev curr key).1) :
    (prev.lookup key = none ∧ (∃ v, curr.lookup key = some v) ∧ tok = key)
    ∨ (∃ p c item, prev.lookup key = some (.arr p) ∧ curr.lookup key = some (.arr c)
        ∧ item ∈ c ∧ item ∉ p ∧ tok = key ++ "." ++ item)
    ∨ (∃ pv cv, prev.lookup key = some pv ∧ curr.lookup key = some cv
        ∧ tok = key ++ " (type changed)") := by
  rcases hp : prev.lookup key with _ | pv <;> rcases hc : curr.lookup key with _ | cv
  · simp [diffKey, hp, hc] at h
  · left
    simp [diffKey, hp, hc] at h
    exact ⟨rfl, ⟨cv, rfl⟩, h⟩
  · simp [diffKey, hp, hc] at h
  · rcases pv with ps | pl <;> rcases cv with cs | cl
    · by_cases hv : SchemaValue.str ps = SchemaValue.str cs
      · simp [diffKey, hp, hc, hv] at h
      · right; right
        simp [diffKey, hp, hc, hv] at h
        exact ⟨_, _, rfl, rfl, h⟩
    · have hv : SchemaValue.str ps ≠ SchemaValue.arr cl := by simp
      right; right
      simp [diffKey, hp, hc, hv] at h
      exact ⟨_, _, rfl, rfl, h⟩
    · have hv : SchemaValue.arr pl ≠ SchemaValue.str cs := by simp
      right; right
      simp [diffKey, hp, hc, hv] at h
      exact ⟨_, _, rfl, rfl, h⟩
    · right; left
      simp only [diffKey, hp, hc, List.mem_map, List.mem_filter] at h
      obtain ⟨item, ⟨hmem, hnot⟩, rfl⟩ := h
      refine ⟨pl, cl, item, rfl, rfl, hmem, ?_, rfl⟩
      simpa using hnot

theorem diffKey_removed_mem {prev curr : Signature} {key tok : String}
    (h : tok ∈ (diffKey prev curr key).2) :
    (curr.lookup key = none ∧ (∃ v, prev.lookup key = some v) ∧ tok = key)
    ∨ (∃ p c item, prev.lookup key = some (.arr p) ∧ curr.lookup key = some (.arr c)
        ∧ item ∈ p ∧ item ∉ c ∧ tok = key ++ "." ++ item) := by
  rcases hp : prev.lookup key with _ | pv <;> rcases hc : curr.lookup key with _ | cv
  · simp [diffKey, hp, hc] at h
  · simp [diffKey, hp, hc] at h
  · left
    simp [diffKey, hp, hc] at h
    exact ⟨rfl, ⟨pv, rfl⟩, h⟩
  · rcases pv with ps | pl <;> rcases cv with cs | cl
    · by_cases hv : SchemaValue.str ps = SchemaValue.str cs
      · simp [diffKey, hp, hc, hv] at h
      · simp [diffKey, hp, hc, hv] at h
    · have hv : SchemaValue.str ps ≠ SchemaValue.arr cl := by simp
      simp [diffKey, hp, hc, hv] at h
    · have hv : SchemaValue.arr pl ≠ SchemaValue.str cs := by simp
      simp [diffKey, hp, hc, hv] at h
    · right
      simp only [diffKey, hp, hc, List.mem_map, List.mem_filter] at h
      obtain ⟨item, ⟨hmem, hnot⟩, rfl⟩ := h
      refine ⟨pl, cl, item, rfl, rfl, hmem, ?_, rfl⟩
      simpa using hnot

/-! ## Character-level token lemmas -/

theorem dot_mem_dotted (k i : String) : '.' ∈ (k ++ "." ++ i).data := by
  rw [String.data_append, String.data_append]
  exact List.mem_append.mpr (Or.inl (List.mem_append.mpr (Or.inr (by decide))))

theorem dot_not_mem_marker {k : String} (hk : '.' ∉ k.data) :
    '.' ∉ (k ++ " (type changed)").data := by
  rw [String.data_append]
  intro h
  rcases List.mem_append.mp h with h | h
  · exact hk h
  · exact absurd h (by decide)

theorem marker_occurs (k : String) :
    ("(type changed)" : String).data <:+: (k ++ " (type changed)").data := by
  rw [String.data_append]
  refine ⟨k.data ++ [' '], [], ?_⟩
  rw [List.append_nil, List.append_assoc]
  congr 1

theorem append_cons_inj {x : Char} :
    ∀ (a b i j : List Char), x ∉ a → x ∉ b → a ++ x :: i = b ++ x :: j →
      a = b ∧ i = j
  | [], [], _, _, _, _, h => ⟨rfl, by injection h⟩
  | [], y :: ys, _, _, _, hb, h => by
    injection h with h1 h2
    subst h1
    exact absurd (List.mem_cons_self x ys) hb
  | z :: zs, [], _, _, ha, _, h => by
    injection h with h1 h2
    subst h1
    exact absurd (List.mem_cons_self z zs) ha
  | z :: zs, y :: ys, i, j, ha, hb, h => by
    injection h with h1 h2
    subst h1
    obtain ⟨hab, hij⟩ := append_cons_inj zs ys i j
      (fun hx => ha (List.mem_cons_of_mem _ hx))
      (fun hx => hb (List.mem_cons_of_mem _ hx)) h2
    exact ⟨by rw [hab], hij⟩

theorem dotted_inj {k1 i1 k2 i2 : String} (h1 : '.' ∉ k1.data) (h2 : '.' ∉ k2.data)
    (h : k1 ++ "." ++ i1 = k2 ++ "." ++ i2) : k1 = k2 ∧ i1 = i2 := by
  have hdot : ("." : String).data = ['.'] := rfl
  have hd : k1.data ++ '.' :: i1.data = k2.data ++ '.' :: i2.data := by
    have hcongr := congrArg String.data h
    rw [String.data_append, String.data_append, String.data_append, String.data_append,
      hdot, List.append_assoc, List.append_assoc] at hcongr
    simpa using hcongr
  obtain ⟨ha, hb⟩ := append_cons_inj _ _ _ _ h1 h2 hd
  exact ⟨String.ext ha, String.ext hb⟩

theorem plain_ne_marker {p k : String} (hp : strIncludes p "(type changed)" = false) :
    p ≠ k ++ " (type changed)" := by
  intro h
  rw [h] at hp
  have hmk : strIncludes (k ++ " (type changed)") "(type changed)" = true :=
    strIncludes_iff.mpr (marker_occurs k)
  rw [hmk] at hp
  exact Bool.noConfusion hp

theorem dotfree_ne_dotted {p k i : String} (hp : '.' ∉ p.data) : p ≠ k ++ "." ++ i := by
  intro h
  rw [h] at hp
  exact hp (dot_mem_dotted k i)

theorem marker_ne_dotted {k1 k2 i : String} (h1 : '.' ∉ k1.data) :
    k1 ++ " (type changed)" ≠ k2 ++ "." ++ i := by
  intro h
  have hnot := dot_not_mem_marker h1
  rw [h] at hnot
  exact hnot (dot_mem_dotted k2 i)

/-! ## Claim theorems about differ disjointness -/

/-- C10 counterexample: a previous signature whose field `x (type
changed)` disappears while field `x` changes type puts the very same
token `"x (type changed)"` into both `added` and `removed` of one call —
the two lists are not disjoint for every input pair. -/
theorem diffSchemas_not_disjoint_counterexample :
    (diffSchemas [("x", SchemaValue.str "string"),
        ("x (type changed)", SchemaValue.str "boolean")]
      [("x", SchemaValue.str "number")]) =
      { added := ["x (type changed)"], removed := ["x (type changed)"] }
    ∧ "x (type changed)" ∈
        (diffSchemas [("x", SchemaValue.str "string"),
            ("x (type changed)", SchemaValue.str "boolean")]
          [("x", SchemaValue.str "number")]).added
    ∧ "x (type changed)" ∈
        (diffSchemas [("x", SchemaValue.str "string"),
            ("x (type changed)", SchemaValue.str "boolean")]
          [("x", SchemaValue.str "number")]).removed := by
  refine ⟨by decide, by decide, by decide⟩

/-- C10 (amended): for every pair of signatures none of whose keys
contains a `.` character or the type-changed marker — which holds for
the signatures the extractors build from dot-free, marker-free field and
type names — the `added` and `removed` lists of one `diffSchemas` call
are disjoint: no token is emitted into both. -/
theorem diffSchemas_disjoint (prev curr : Signature)
    (hclean : ∀ k, k ∈ prev.map Prod.fst ++ curr.map Prod.fst →
      ('.' ∉ k.data ∧ strIncludes k "(type changed)" = false)) :
    ∀ tok, tok ∈ (diffSchemas prev curr).added →
      tok ∉ (diffSchemas prev curr).removed := by
  intro tok hadd hrem
  have hadd' : ∃ k ∈ dedupFirst (prev.map Prod.fst ++ curr.map Prod.fst),
      tok ∈ (diffKey prev curr k).1 := by
    simpa [diffSchemas, List.mem_flatMap] using hadd
  have hrem' : ∃ k ∈ dedupFirst (prev.map Prod.fst ++ curr.map Prod.fst),
      tok ∈ (diffKey prev curr k).2 := by
    simpa [diffSchemas, List.mem_flatMap] using hrem
  obtain ⟨k1, hk1, h1⟩ := hadd'
  obtain ⟨k2, hk2, h2⟩ := hrem'
  obtain ⟨hk1dot, hk1mark⟩ := hclean k1 (mem_dedupFirst.mp hk1)
  obtain ⟨hk2dot, hk2mark⟩ := hclean k2 (mem_dedupFirst.mp hk2)
  rcases diffKey_added_mem h1 with
    ⟨hp1, ⟨v1, hc1⟩, rfl⟩ | ⟨p1, c1, i1, hp1, hc1, hic, hip, rfl⟩ | ⟨pv, cv, hp1, hc1, rfl⟩
  · rcases diffKey_removed_mem h2 with ⟨hc2, ⟨w, hp2⟩, he⟩ | ⟨p2, c2, i2, hp2, hc2, _, _, he⟩
    · subst he
      rw [hp1] at hp2
      exact Option.noConfusion hp2
    · exact dotfree_ne_dotted hk1dot he
  · rcases diffKey_removed_mem h2 with ⟨hc2, ⟨w, hp2⟩, he⟩ | ⟨p2, c2, i2, hp2, hc2, hip2, hic2, he⟩
    · exact dotfree_ne_dotted hk2dot he.symm
    · obtain ⟨hk, hi⟩ := dotted_inj hk1dot hk2dot he
      subst hk
      subst hi
      rw [hp1] at hp2
      rw [hc1] at hc2
      injection hp2 with hp2'
      injection hc2 with hc2'
      injection hp2' with hp2''
      injection hc2' with hc2''
      exact hip (hp2'' ▸ hip2)
  · rcases diffKey_removed_mem h2 with ⟨hc2, ⟨w, hp2⟩, he⟩ | ⟨p2, c2, i2, hp2, hc2, _, _, he⟩
    · exact plain_ne_marker hk2mark he.symm
    · exact marker_ne_dotted hk1dot he

/-- Witness for the amended C10: a pair of clean signatures (one key
removed, one type change, one GraphQL list change) has disjoint `added`
and `removed`. -/
theorem diffSchemas_disjoint_witness :
    (∀ k, k ∈ ([("a", SchemaValue.str "string"), ("g", SchemaValue.arr ["f:Int"]),
          ("r", SchemaValue.str "boolean")] : Signature).map Prod.fst ++
        ([("a", SchemaValue.str "number"),
          ("g", SchemaValue.arr ["f:Int", "h:Int"])] : Signature).map Prod.fst →
      ('.' ∉ k.data ∧ strIncludes k "(type changed)" = false))
    ∧ ∀ tok, tok ∈ (diffSchemas
        [("a", SchemaValue.str "string"), ("g", SchemaValue.arr ["f:Int"]),
         ("r", SchemaValue.str "boolean")]
        [("a", SchemaValue.str "number"),
         ("g", SchemaValue.arr ["f:Int", "h:Int"])]).added →
      tok ∉ (diffSchemas
        [("a", SchemaValue.str "string"), ("g", SchemaValue.arr ["f:Int"]),
         ("r", SchemaValue.str "boolean")]
        [("a", SchemaValue.str "number"),
         ("g", SchemaValue.arr ["f:Int", "h:Int"])]).removed :=
  ⟨by decide,
    diffSchemas_disjoint
      [("a", SchemaValue.str "string"), ("g", SchemaValue.arr ["f:Int"]),
       ("r", SchemaValue.str "boolean")]
      [("a", SchemaValue.str "number"), ("g", SchemaValue.arr ["f:Int", "h:Int"])]
      (by decide)⟩

end DriftMonitor
